import Mathlib

/-!
Shallow embedding of `src/service/stream.rs` (stream metadata service of the
openobserve repository): the settings codec inside `stream_res`, the stats
normalizer `transform_stats`, the read path `get_stream` / `get_streams`, the
settings write path `save_stream_settings`, the delete workflow
`delete_stream`, and the FTS-field reader `get_stream_setting_fts_fields`.

Modelling conventions:
* Rust panics (`unwrap()` on `None` / `Err`) are modelled by `Option`: a
  function that can panic returns `none` exactly on the panicking inputs.
* `f64` arithmetic in `transform_stats` is modelled exactly over `ℚ`;
  `f64::round` (round to nearest, ties away from zero) is `rustRound`.
* The external collaborators (schema store, stats cache, compaction
  subsystem, in-process caches, the `is_local_disk_storage` configuration
  query) are injected as explicit parameters / state records, following the
  interface contracts of the service.
* `serde_json` values are the inductive `Json`; a stored metadata string is
  represented by its parse result (`MetaVal`), so `json::from_slice` becomes
  a total function on that representation.
-/

/-- A parsed JSON value (`serde_json::Value`). Numbers are restricted to the
integers that `as_i64` can produce; no claim involves non-integer JSON
numbers. Objects are association lists in document order. -/
inductive Json where
  | null : Json
  | bool : Bool → Json
  | int : Int → Json
  | str : String → Json
  | arr : List Json → Json
  | obj : List (String × Json) → Json

/-- `Value::as_bool`. -/
def Json.asBool : Json → Option Bool
  | .bool b => some b
  | _ => none

/-- `Value::as_str`. -/
def Json.asStr : Json → Option String
  | .str s => some s
  | _ => none

/-- `Value::as_i64`. -/
def Json.asI64 : Json → Option Int
  | .int n => some n
  | _ => none

/-- `Value::as_array`. -/
def Json.asArray : Json → Option (List Json)
  | .arr xs => some xs
  | _ => none

/-- `Value::as_object` (the object's entries, in document order). -/
def Json.asObject : Json → Option (List (String × Json))
  | .obj kvs => some kvs
  | _ => none

/-- Key lookup in an object's entry list (first match, as in a map that
cannot hold duplicate keys). -/
def lookupKV : List (String × Json) → String → Option Json
  | [], _ => none
  | (k, v) :: rest, key => if k = key then some v else lookupKV rest key

/-- `Value::get(key)`: `Some` only on objects. -/
def Json.get : Json → String → Option Json
  | .obj kvs, key => lookupKV kvs key
  | _, _ => none

/-- A stored metadata string as seen through `json::from_slice`: either a
string that parses to a JSON value, or a string that is not valid JSON.
The byte-level parser is the external serde library; this type records its
outcome, which is all the service's code observes. -/
inductive MetaVal where
  | json : Json → MetaVal
  | malformed : MetaVal

/-- `json::from_slice::<json::Value>(value.as_bytes())`, as a total function
on the parse-outcome representation: `none` is the `Err` case (which the
service always `unwrap`s, i.e. panics on). -/
def from_slice : MetaVal → Option Json
  | .json v => some v
  | .malformed => none

/-- A schema's metadata map (`HashMap<String, String>`), as an association
list; lookups take the first match, so the list behaves as a map. -/
abbrev Metadata := List (String × MetaVal)

/-- `HashMap::get`. -/
def lookupMeta : Metadata → String → Option MetaVal
  | [], _ => none
  | (k, v) :: rest, key => if k = key then some v else lookupMeta rest key

/-- `HashMap::remove` (drops every entry with the given key). -/
def removeKey (m : Metadata) (key : String) : Metadata :=
  m.filter (fun kv => kv.1 != key)

/-- `HashMap::insert` (replaces any existing entry with the key). -/
def insertMeta (m : Metadata) (key : String) (v : MetaVal) : Metadata :=
  (key, v) :: removeKey m key

/-- `HashMap::contains_key`. -/
def containsKey (m : Metadata) (key : String) : Bool :=
  (lookupMeta m key).isSome

/-- The stream type tag (`StreamType`, external enum; its constructors do not
matter to any claim, only that it is a decidable key component and renders
into the cache-key string). -/
inductive StreamType where
  | logs : StreamType
  | metrics : StreamType
  | traces : StreamType
deriving DecidableEq

/-- The `Display` rendering of a stream type, used in the schema-cache key
format string. -/
def StreamType.render : StreamType → String
  | .logs => "logs"
  | .metrics => "metrics"
  | .traces => "traces"

/-- An arrow schema field, carrying its name and the `to_string` rendering of
its declared `DataType` (the rendering itself is arrow library code). -/
structure SchemaField where
  name : String
  dataType : String
deriving DecidableEq

/-- `datafusion::arrow::datatypes::Schema`: ordered fields plus the string
metadata map. -/
structure Schema where
  fields : List SchemaField
  metadata : Metadata

/-- `Schema::empty()`: no fields, empty metadata map. -/
def Schema.emptySchema : Schema := ⟨[], []⟩

/-- The test `schema == Schema::empty()`. Structural equality against the
empty schema holds iff both components are empty (`Schema`'s derived
`PartialEq` compares fields and metadata). -/
def Schema.isEmptySchema (s : Schema) : Bool :=
  s.fields.isEmpty && s.metadata.isEmpty

/-- `StreamProperty` (name / rendered type pair). -/
structure StreamProperty where
  prop_type : String
  name : String
deriving DecidableEq

/-- `StreamSettings`. -/
structure StreamSettings where
  partition_keys : List String
  full_text_search_keys : List String
  skip_schema_validation : Bool
  data_retention : Int
deriving DecidableEq

/-- The all-default `StreamSettings` value. -/
def StreamSettings.default : StreamSettings := ⟨[], [], false, 0⟩

/-- Modelled from the spec: `StreamStats` (defined in `meta/stream.rs`, which
is not part of the provided source): a row count, raw and compressed storage
sizes in bytes, and the time-range bounds. Sizes are `f64` in the source,
modelled exactly over `ℚ`. -/
structure StreamStats where
  doc_num : Int
  storage_size : ℚ
  compressed_size : ℚ
  doc_time_min : Int
  doc_time_max : Int
deriving DecidableEq

/-- Modelled from the spec: `StreamStats::default()` is the all-zero value. -/
def StreamStats.default : StreamStats := ⟨0, 0, 0, 0, 0⟩

/-- The output entity (the source's `Stream` struct; named `StreamDescriptor`
here because `Stream` is taken by the Lean core library). -/
structure StreamDescriptor where
  name : String
  stream_type : StreamType
  storage_type : String
  schema : List StreamProperty
  stats : StreamStats
  settings : StreamSettings
deriving DecidableEq

/-- `const SIZE_IN_MB: f64 = 1024.0 * 1024.0`. -/
def SIZE_IN_MB : ℚ := 1024 * 1024

/-- `const LOCAL: &str = "disk"`. -/
def LOCAL : String := "disk"

/-- `const S3: &str = "s3"`. -/
def S3 : String := "s3"

/-- `f64::round`: round to the nearest integer, ties away from zero,
modelled on `ℚ` (stated over the executable `Rat.floor` and the sign of the
numerator so that concrete inputs evaluate; `rustRound_eq` below restates it
through `Int.floor`). -/
def rustRound (x : ℚ) : ℤ :=
  if x.num < 0 then -(-x + 1 / 2).floor else (x + 1 / 2).floor

/-- `transform_stats`: bytes → mebibytes on the two size fields, each then
rounded to two decimals; all other fields pass through. -/
def transform_stats (stats : StreamStats) : StreamStats :=
  let storage_mb := stats.storage_size / SIZE_IN_MB
  let compressed_mb := stats.compressed_size / SIZE_IN_MB
  { stats with
    storage_size := (rustRound (storage_mb * 100) : ℚ) / 100
    compressed_size := (rustRound (compressed_mb * 100) : ℚ) / 100 }

/-- Character comparison used for the partition-key sort: Rust's `str::cmp`
is byte-lexicographic on UTF-8, which coincides with code-point order, hence
with `Char`'s linear order. -/
def charListLtB : List Char → List Char → Bool
  | _, [] => false
  | [], _ :: _ => true
  | a :: as, b :: bs =>
    if a < b then true else if b < a then false else charListLtB as bs

/-- `String` comparison (`a.cmp(b) == Ordering::Less`). -/
def strLtB (a b : String) : Bool := charListLtB a.data b.data

/-- One step of the stable ascending-by-key insertion used to model
`v.sort_by(|a, b| a.0.cmp(b.0))` on an object's entry list. -/
def insertKV (x : String × Json) : List (String × Json) → List (String × Json)
  | [] => [x]
  | y :: ys => if strLtB y.1 x.1 then y :: insertKV x ys else x :: y :: ys

/-- `v.sort_by(|a, b| a.0.cmp(b.0))`: stable sort of the entries by key. -/
def sortKV : List (String × Json) → List (String × Json)
  | [] => []
  | x :: xs => insertKV x (sortKV xs)

/-- Sequential `Option`-valued map: the translation of the source's `for`
loops that `push` an `unwrap`ped value per element (`none` = some element
panicked). -/
def mapMOpt (f : α → Option β) : List α → Option (List β)
  | [] => some []
  | a :: as =>
    match f a, mapMOpt f as with
    | some b, some bs => some (b :: bs)
    | _, _ => none

/-- `stream_res` lines 114-116: the `skip_schema_validation` field; a missing
key keeps the default `false`, a present key is `as_bool().unwrap()`ed. -/
def decodeSkip (s : Json) : Option Bool :=
  match s.get "skip_schema_validation" with
  | none => some false
  | some v => v.asBool

/-- `stream_res` lines 117-125: the `partition_keys` field; a missing key
keeps the default `[]`, a present key is read `as_object().unwrap()`,
entries sorted by key, and each value `as_str().unwrap()`ed in that order. -/
def decodePartitionKeys (s : Json) : Option (List String) :=
  match s.get "partition_keys" with
  | none => some []
  | some v =>
    match v.asObject with
    | none => none
    | some kvs => mapMOpt (fun kv => kv.2.asStr) (sortKV kvs)

/-- `stream_res` lines 126-132: the `full_text_search_keys` field; a missing
key keeps the default `[]`, a present key is read `as_array().unwrap()` and
each item `as_str().unwrap()`ed in array order. -/
def decodeFts (s : Json) : Option (List String) :=
  match s.get "full_text_search_keys" with
  | none => some []
  | some v =>
    match v.asArray with
    | none => none
    | some items => mapMOpt Json.asStr items

/-- `stream_res` lines 133-135: the `data_retention` field; a missing key
keeps the default `0`, a present key is `as_i64().unwrap()`ed. -/
def decodeRetention (s : Json) : Option Int :=
  match s.get "data_retention" with
  | none => some 0
  | some v => v.asI64

/-- `stream_res` lines 112-136: decoding a parsed settings value into
`StreamSettings`; `none` means one of the `unwrap`s panicked. -/
def decodeSettings (s : Json) : Option StreamSettings :=
  match decodeSkip s with
  | none => none
  | some skip =>
    match decodePartitionKeys s with
    | none => none
    | some pk =>
      match decodeFts s with
      | none => none
      | some fts =>
        match decodeRetention s with
        | none => none
        | some ret => some ⟨pk, fts, skip, ret⟩

/-- `stream_res` lines 106-136: strip `created_at` from the metadata, look up
the `settings` entry (absent entry gives the all-default settings), parse it
(`json::from_slice(..).unwrap()`) and decode the four fields. -/
def decodeMetaSettings (metadata : Metadata) : Option StreamSettings :=
  match lookupMeta (removeKey metadata "created_at") "settings" with
  | none => some StreamSettings.default
  | some mv =>
    match from_slice mv with
    | none => none
    | some s => decodeSettings s

/-- `stream_res`: build the output record from the schema's fields, its
decoded settings, the optional stats (absent stats replaced by the default
value), and the storage-backend label chosen by the injected
`is_local_disk_storage()` configuration bit. `none` = a settings decode
panic. -/
def stream_res (stream_name : String) (stream_type : StreamType) (schema : Schema)
    (stats : Option StreamStats) (is_local_disk : Bool) : Option StreamDescriptor :=
  match decodeMetaSettings schema.metadata with
  | none => none
  | some stgs =>
    some
      { name := stream_name
        stream_type := stream_type
        storage_type := if is_local_disk then LOCAL else S3
        schema := schema.fields.map (fun f => ⟨f.dataType, f.name⟩)
        stats := match stats with
                 | some v => v
                 | none => StreamStats.default
        settings := stgs }

/-- The caller-facing response bodies built by the service
(`MetaHttpResponse::error`, `MetaHttpResponse::message`, and the JSON
payloads). -/
inductive Body where
  | stream : StreamDescriptor → Body
  | error : Nat → String → Body
  | message : Nat → String → Body
deriving DecidableEq

/-- An `actix_web::HttpResponse` as the service builds it: the constructor
records the HTTP status, the argument the JSON body. -/
inductive HttpResponse where
  | ok : Body → HttpResponse
  | notFound : Body → HttpResponse
  | internalServerError : Body → HttpResponse
deriving DecidableEq

/-- The numeric status of a response constructor. -/
def HttpResponse.statusCode : HttpResponse → Nat
  | .ok _ => 200
  | .notFound _ => 404
  | .internalServerError _ => 500

/-- `get_stream`: fetch the schema and stats through the injected external
interfaces, normalize the stats, and return the descriptor unless the schema
equals `Schema::empty()`, in which case return 404. `none` = a
`stream_res` panic. -/
def get_stream (schemaGet : String → String → StreamType → Schema)
    (getStreamStats : String → String → StreamType → StreamStats)
    (is_local_disk : Bool) (org_id stream_name : String)
    (stream_type : StreamType) : Option HttpResponse :=
  let schema := schemaGet org_id stream_name stream_type
  let stats := transform_stats (getStreamStats org_id stream_name stream_type)
  if !schema.isEmptySchema then
    match stream_res stream_name stream_type schema (some stats) is_local_disk with
    | none => none
    | some st => some (.ok (.stream st))
  else
    some (.notFound (.error 404 "stream not found"))

/-- One entry of the external store's listing (`db::schema::list`). -/
structure StreamLoc where
  stream_name : String
  stream_type : StreamType
  schema : Schema

/-- `get_streams`: one descriptor per listed stream, in listing order; raw
stats equal to the default value are passed to the builder as `None`, any
other raw stats are normalized and attached. `none` = a `stream_res` panic
on some entry. -/
def get_streams (org_id : String) (indices : List StreamLoc)
    (getStreamStats : String → String → StreamType → StreamStats)
    (is_local_disk : Bool) : Option (List StreamDescriptor) :=
  mapMOpt
    (fun loc =>
      let stats := getStreamStats org_id loc.stream_name loc.stream_type
      if stats = StreamStats.default then
        stream_res loc.stream_name loc.stream_type loc.schema none is_local_disk
      else
        stream_res loc.stream_name loc.stream_type loc.schema
          (some (transform_stats stats)) is_local_disk)
    indices

/-- Modelled from the spec: `json::to_string(&setting)` — the serialized
settings text written back into the metadata (the serializer lives in
external library / `meta/stream.rs` code outside the provided source);
represented by its parse result. No claim depends on this layout. -/
def encodeSettings (s : StreamSettings) : MetaVal :=
  .json (.obj
    [("partition_keys", .arr (s.partition_keys.map Json.str)),
     ("full_text_search_keys", .arr (s.full_text_search_keys.map Json.str)),
     ("skip_schema_validation", .bool s.skip_schema_validation),
     ("data_retention", .int s.data_retention)])

/-- The request-scoped outcomes of the external calls made by
`save_stream_settings`: the compaction subsystem's pending-delete query and
the current-time stamp. -/
structure SaveEffects where
  is_deleting : Bool
  now_micros : Int

/-- `save_stream_settings`: refuse (HTTP 500, "stream [name] is being
deleted") when a delete is pending, otherwise write the settings into the
schema's metadata, stamping `created_at` once if absent, and store the
updated schema. Returns the response together with the updated schema
store. -/
def save_stream_settings (store : String → String → StreamType → Schema)
    (eff : SaveEffects) (org_id stream_name : String) (stream_type : StreamType)
    (setting : StreamSettings) :
    HttpResponse × (String → String → StreamType → Schema) :=
  if eff.is_deleting then
    (.internalServerError
      (.error 500 ("stream [" ++ stream_name ++ "] is being deleted")), store)
  else
    let schema := store org_id stream_name stream_type
    let metadata := insertMeta schema.metadata "settings" (encodeSettings setting)
    let metadata :=
      if containsKey metadata "created_at" then metadata
      else insertMeta metadata "created_at" (.json (.int eff.now_micros))
    let newSchema : Schema := { schema with metadata := metadata }
    (.ok (.message 200 ""),
     fun o n t =>
       if o = org_id ∧ n = stream_name ∧ t = stream_type then newSchema
       else store o n t)

/-- The key (org, stream type, stream name) addressing the per-stream records
of the external subsystems. -/
abbrev StreamKey := String × StreamType × String

/-- Pointwise update of a keyed store. -/
def updFn [DecidableEq κ] (f : κ → α) (k : κ) (v : α) : κ → α :=
  fun q => if q = k then v else f q

/-- The schema-cache key `"{org_id}/{stream_type}/{stream_name}"`. -/
def cacheKey (org_id : String) (stream_type : StreamType)
    (stream_name : String) : String :=
  org_id ++ "/" ++ stream_type.render ++ "/" ++ stream_name

/-- The externally owned records the delete workflow touches: the versioned
schema store, the in-process schema cache (keyed by the formatted string),
the stats cache, the compaction pending-delete marks and the compaction
offsets. -/
structure World where
  schemaVersions : StreamKey → List Schema
  schemaCache : String → Option Schema
  statsCache : StreamKey → Option StreamStats
  compactPending : StreamKey → Bool
  compactOffset : StreamKey → Option Int

/-- The request-scoped outcomes of the three fallible external calls of the
delete workflow (each `Err` carries the displayed cause `{e}`). -/
structure DeleteOutcomes where
  compactMark : Except String Unit
  schemaDelete : Except String Unit
  offsetDelete : Except String Unit

/-- `delete_stream`: check the version list (empty → 404, nothing touched),
then in order mark the stream pending deletion with the compactor, delete
the schema, drop the schema-cache and stats-cache entries, and delete the
compaction offset — returning a 500 `"failed to delete stream: {e}"`
response at the first failing call and leaving later records untouched. -/
def delete_stream (w : World) (eff : DeleteOutcomes) (org_id stream_name : String)
    (stream_type : StreamType) : HttpResponse × World :=
  let key : StreamKey := (org_id, stream_type, stream_name)
  if (w.schemaVersions key).isEmpty then
    (.notFound (.error 404 "stream not found"), w)
  else
    match eff.compactMark with
    | .error e =>
      (.internalServerError (.error 500 ("failed to delete stream: " ++ e)), w)
    | .ok _ =>
      let w1 : World := { w with compactPending := updFn w.compactPending key true }
      match eff.schemaDelete with
      | .error e =>
        (.internalServerError (.error 500 ("failed to delete stream: " ++ e)), w1)
      | .ok _ =>
        let w2 : World := { w1 with schemaVersions := updFn w1.schemaVersions key [] }
        let w3 : World :=
          { w2 with
            schemaCache :=
              updFn w2.schemaCache (cacheKey org_id stream_type stream_name) none
            statsCache := updFn w2.statsCache key none }
        match eff.offsetDelete with
        | .error e =>
          (.internalServerError (.error 500 ("failed to delete stream: " ++ e)), w3)
        | .ok _ =>
          (.ok (.message 200 "stream deleted"),
           { w3 with compactOffset := updFn w3.compactOffset key none })

/-- `get_stream_setting_fts_fields`: an independent reader of the
`full_text_search_keys` list from a schema's metadata (missing `settings`
entry or missing key → `Ok(vec![])`; parse and item `unwrap`s = `none`). -/
def get_stream_setting_fts_fields (schema : Schema) : Option (List String) :=
  match lookupMeta schema.metadata "settings" with
  | none => some []
  | some mv =>
    match from_slice mv with
    | none => none
    | some settings =>
      match settings.get "full_text_search_keys" with
      | none => some []
      | some fts =>
        match fts.asArray with
        | none => none
        | some items => mapMOpt Json.asStr items

/-- The non-strict key order produced by the sort: strictly smaller key, or
equal key (equal keys keep their relative input order — the sort is
stable). -/
def keyLe (a b : String × Json) : Prop := strLtB a.1 b.1 = true ∨ a.1 = b.1

theorem isEmptySchema_iff (s : Schema) :
    s.isEmptySchema = true ↔ s = Schema.emptySchema := by
  obtain ⟨fs, m⟩ := s
  constructor
  · intro h
    simp only [Schema.isEmptySchema, Bool.and_eq_true, List.isEmpty_iff] at h
    obtain ⟨h1, h2⟩ := h
    subst h1; subst h2; rfl
  · intro h
    cases h
    rfl

theorem rustRound_eq (x : ℚ) :
    rustRound x = if x < 0 then -⌊-x + 1 / 2⌋ else ⌊x + 1 / 2⌋ := by
  have hfloor : ∀ q : ℚ, q.floor = ⌊q⌋ := by
    intro q
    rw [Rat.floor_def' q, Rat.floor_def]
  by_cases h : x < 0
  · have hn : x.num < 0 := not_le.mp (fun hc => (not_le.mpr h) (Rat.num_nonneg.mp hc))
    rw [rustRound, if_pos hn, if_pos h, hfloor]
  · have hn : ¬ x.num < 0 := not_lt.mpr (Rat.num_nonneg.mpr (not_lt.mp h))
    rw [rustRound, if_neg hn, if_neg h, hfloor]

theorem lookupMeta_removeKey (m : Metadata) (k k' : String) (h : k ≠ k') :
    lookupMeta (removeKey m k') k = lookupMeta m k := by
  induction m with
  | nil => rfl
  | cons kv rest ih =>
    obtain ⟨a, b⟩ := kv
    simp only [removeKey, List.filter_cons] at ih ⊢
    by_cases ha : a = k'
    · subst ha
      rw [if_neg (by simp)]
      rw [ih]
      simp only [lookupMeta]
      rw [if_neg (Ne.symm h)]
    · rw [if_pos (by simpa using ha)]
      simp only [lookupMeta]
      by_cases hak : a = k
      · rw [if_pos hak, if_pos hak]
      · rw [if_neg hak, if_neg hak]
        exact ih

theorem charListLtB_trichotomy (as bs : List Char) :
    charListLtB as bs = true ∨ as = bs ∨ charListLtB bs as = true := by
  induction as generalizing bs with
  | nil =>
    cases bs with
    | nil => right; left; rfl
    | cons b bs => left; rfl
  | cons a as ih =>
    cases bs with
    | nil => right; right; rfl
    | cons b bs =>
      rcases lt_trichotomy a b with h | h | h
      · left
        simp only [charListLtB]
        rw [if_pos h]
      · subst h
        rcases ih bs with h2 | h2 | h2
        · left
          simp only [charListLtB]
          rw [if_neg (lt_irrefl a), if_neg (lt_irrefl a)]
          exact h2
        · right; left; rw [h2]
        · right; right
          simp only [charListLtB]
          rw [if_neg (lt_irrefl a), if_neg (lt_irrefl a)]
          exact h2
      · right; right
        simp only [charListLtB]
        rw [if_pos h]

theorem strLtB_trichotomy (a b : String) :
    strLtB a b = true ∨ a = b ∨ strLtB b a = true := by
  rcases charListLtB_trichotomy a.data b.data with h | h | h
  · left; exact h
  · right; left
    cases a with
    | mk da =>
      cases b with
      | mk db =>
        simp only at h
        rw [h]
  · right; right; exact h

theorem charListLtB_trans (as bs cs : List Char)
    (h1 : charListLtB as bs = true) (h2 : charListLtB bs cs = true) :
    charListLtB as cs = true := by
  induction as generalizing bs cs with
  | nil =>
    cases cs with
    | nil =>
      cases bs with
      | nil => exact h1
      | cons b bs => simp [charListLtB] at h2
    | cons c cs => rfl
  | cons a as ih =>
    cases bs with
    | nil => simp [charListLtB] at h1
    | cons b bs =>
      cases cs with
      | nil => simp [charListLtB] at h2
      | cons c cs =>
        simp only [charListLtB] at h1 h2 ⊢
        by_cases hab : a < b
        · by_cases hbc : b < c
          · rw [if_pos (lt_trans hab hbc)]
          · by_cases hcb : c < b
            · rw [if_neg hbc, if_pos hcb] at h2
              exact absurd h2 (by simp)
            · have hbc2 : b = c := le_antisymm (not_lt.mp hcb) (not_lt.mp hbc)
              subst hbc2
              rw [if_pos hab]
        · by_cases hba : b < a
          · rw [if_neg hab, if_pos hba] at h1
            exact absurd h1 (by simp)
          · have hab2 : a = b := le_antisymm (not_lt.mp hba) (not_lt.mp hab)
            subst hab2
            rw [if_neg (lt_irrefl a), if_neg (lt_irrefl a)] at h1
            by_cases hac : a < c
            · rw [if_pos hac]
            · by_cases hca : c < a
              · rw [if_neg hac, if_pos hca] at h2
                exact absurd h2 (by simp)
              · have hac2 : a = c := le_antisymm (not_lt.mp hca) (not_lt.mp hac)
                subst hac2
                rw [if_neg (lt_irrefl a), if_neg (lt_irrefl a)] at h2
                rw [if_neg (lt_irrefl a), if_neg (lt_irrefl a)]
                exact ih bs cs h1 h2

theorem keyLe_trans {a b c : String × Json} (h1 : keyLe a b) (h2 : keyLe b c) :
    keyLe a c := by
  rcases h1 with h1 | h1
  · rcases h2 with h2 | h2
    · exact Or.inl (charListLtB_trans _ _ _ h1 h2)
    · exact Or.inl (h2 ▸ h1)
  · rcases h2 with h2 | h2
    · exact Or.inl (h1 ▸ h2)
    · exact Or.inr (h1.trans h2)

theorem keyLe_total_of_not_lt {x y : String × Json}
    (h : ¬ strLtB y.1 x.1 = true) : keyLe x y := by
  rcases strLtB_trichotomy x.1 y.1 with h2 | h2 | h2
  · exact Or.inl h2
  · exact Or.inr h2
  · exact absurd h2 h

theorem insertKV_perm (x : String × Json) (l : List (String × Json)) :
    List.Perm (insertKV x l) (x :: l) := by
  induction l with
  | nil => exact List.Perm.refl _
  | cons y ys ih =>
    by_cases h : strLtB y.1 x.1 = true
    · simp only [insertKV, if_pos h]
      exact (ih.cons y).trans (List.Perm.swap x y ys)
    · simp only [insertKV, if_neg h]
      exact List.Perm.refl _

theorem sortKV_perm (l : List (String × Json)) : List.Perm (sortKV l) l := by
  induction l with
  | nil => exact List.Perm.refl _
  | cons x xs ih =>
    exact (insertKV_perm x (sortKV xs)).trans (ih.cons x)

theorem insertKV_pairwise (x : String × Json) (l : List (String × Json))
    (h : l.Pairwise keyLe) : (insertKV x l).Pairwise keyLe := by
  induction l with
  | nil => simp [insertKV]
  | cons y ys ih =>
    rcases List.pairwise_cons.mp h with ⟨hy, hys⟩
    by_cases hlt : strLtB y.1 x.1 = true
    · simp only [insertKV, if_pos hlt]
      refine List.pairwise_cons.mpr ⟨?_, ih hys⟩
      intro z hz
      have hz2 : z ∈ x :: ys := (insertKV_perm x ys).mem_iff.mp hz
      rcases List.mem_cons.mp hz2 with hz3 | hz3
      · subst hz3
        exact Or.inl hlt
      · exact hy z hz3
    · simp only [insertKV, if_neg hlt]
      refine List.pairwise_cons.mpr ⟨?_, h⟩
      intro z hz
      rcases List.mem_cons.mp hz with hz | hz
      · subst hz
        exact keyLe_total_of_not_lt hlt
      · exact keyLe_trans (keyLe_total_of_not_lt hlt) (hy z hz)

theorem sortKV_pairwise (l : List (String × Json)) :
    (sortKV l).Pairwise keyLe := by
  induction l with
  | nil => exact List.Pairwise.nil
  | cons x xs ih => exact insertKV_pairwise x (sortKV xs) ih

theorem mapMOpt_length {f : α → Option β} {l : List α} {r : List β}
    (h : mapMOpt f l = some r) : r.length = l.length := by
  induction l generalizing r with
  | nil =>
    simp only [mapMOpt, Option.some.injEq] at h
    subst h; rfl
  | cons a as ih =>
    simp only [mapMOpt] at h
    cases hfa : f a with
    | none => rw [hfa] at h; exact absurd h (by simp)
    | some b =>
      rw [hfa] at h
      cases hrest : mapMOpt f as with
      | none => rw [hrest] at h; exact absurd h (by simp)
      | some bs =>
        rw [hrest] at h
        simp only [Option.some.injEq] at h
        subst h
        simp [ih hrest]

theorem mapMOpt_get? {f : α → Option β} {l : List α} {r : List β}
    (h : mapMOpt f l = some r) :
    ∀ i a, l.get? i = some a → ∃ b, r.get? i = some b ∧ f a = some b := by
  induction l generalizing r with
  | nil => intro i a ha; simp at ha
  | cons x xs ih =>
    simp only [mapMOpt] at h
    cases hfx : f x with
    | none => rw [hfx] at h; exact absurd h (by simp)
    | some b =>
      rw [hfx] at h
      cases hrest : mapMOpt f xs with
      | none => rw [hrest] at h; exact absurd h (by simp)
      | some bs =>
        rw [hrest] at h
        simp only [Option.some.injEq] at h
        subst h
        intro i a ha
        cases i with
        | zero =>
          simp only [List.get?] at ha
          cases ha
          exact ⟨b, rfl, hfx⟩
        | succ n =>
          simp only [List.get?] at ha ⊢
          exact ih hrest n a ha

theorem stream_res_some_inv {name : String} {ty : StreamType} {sch : Schema}
    {stats : Option StreamStats} {loc : Bool} {st : StreamDescriptor}
    (h : stream_res name ty sch stats loc = some st) :
    decodeMetaSettings sch.metadata = some st.settings ∧
    st.name = name ∧ st.stream_type = ty ∧
    st.storage_type = (if loc then LOCAL else S3) ∧
    st.schema = sch.fields.map (fun f => ⟨f.dataType, f.name⟩) ∧
    (stats = none → st.stats = StreamStats.default) ∧
    (∀ v, stats = some v → st.stats = v) := by
  unfold stream_res at h
  cases hd : decodeMetaSettings sch.metadata with
  | none => rw [hd] at h; exact absurd h (by simp)
  | some stgs =>
    rw [hd] at h
    simp only [Option.some.injEq] at h
    subst h
    refine ⟨rfl, rfl, rfl, rfl, rfl, ?_, ?_⟩
    · intro hs; subst hs; rfl
    · intro v hs; subst hs; rfl

theorem decodeSettings_some_inv {s : Json} {stgs : StreamSettings}
    (h : decodeSettings s = some stgs) :
    decodeSkip s = some stgs.skip_schema_validation ∧
    decodePartitionKeys s = some stgs.partition_keys ∧
    decodeFts s = some stgs.full_text_search_keys ∧
    decodeRetention s = some stgs.data_retention := by
  unfold decodeSettings at h
  cases h1 : decodeSkip s with
  | none => rw [h1] at h; exact absurd h (by simp)
  | some skip =>
    rw [h1] at h
    cases h2 : decodePartitionKeys s with
    | none => rw [h2] at h; exact absurd h (by simp)
    | some pk =>
      rw [h2] at h
      cases h3 : decodeFts s with
      | none => rw [h3] at h; exact absurd h (by simp)
      | some fts =>
        rw [h3] at h
        cases h4 : decodeRetention s with
        | none => rw [h4] at h; exact absurd h (by simp)
        | some ret =>
          rw [h4] at h
          simp only [Option.some.injEq] at h
          subst h
          exact ⟨rfl, rfl, rfl, rfl⟩

theorem rustRound_of_bounds (x : ℚ) (n : ℤ) (h0 : 0 ≤ x)
    (h1 : (n : ℚ) ≤ x + 1 / 2) (h2 : x + 1 / 2 < (n : ℚ) + 1) :
    rustRound x = n := by
  rw [rustRound_eq, if_neg (not_lt.mpr h0)]
  exact Int.floor_eq_iff.mpr ⟨h1, h2⟩

theorem rustRound_abs_sub (x : ℚ) : |(rustRound x : ℚ) - x| ≤ 1 / 2 := by
  rw [rustRound_eq]
  by_cases h : x < 0
  · rw [if_pos h]
    have h1 : ((⌊-x + 1 / 2⌋ : ℤ) : ℚ) ≤ -x + 1 / 2 := Int.floor_le _
    have h2 : -x + 1 / 2 < (⌊-x + 1 / 2⌋ : ℤ) + 1 := Int.lt_floor_add_one _
    rw [abs_le]
    push_cast at h1 h2 ⊢
    constructor <;> linarith
  · rw [if_neg h]
    have h1 : ((⌊x + 1 / 2⌋ : ℤ) : ℚ) ≤ x + 1 / 2 := Int.floor_le _
    have h2 : x + 1 / 2 < (⌊x + 1 / 2⌋ : ℤ) + 1 := Int.lt_floor_add_one _
    rw [abs_le]
    push_cast at h1 h2 ⊢
    constructor <;> linarith

theorem transform_stats_mk (d : ℤ) (s c : ℚ) (t1 t2 : ℤ) :
    transform_stats ⟨d, s, c, t1, t2⟩ =
      ⟨d, (rustRound (s / SIZE_IN_MB * 100) : ℚ) / 100,
       (rustRound (c / SIZE_IN_MB * 100) : ℚ) / 100, t1, t2⟩ := rfl

theorem transform_stats_default_id :
    transform_stats StreamStats.default = StreamStats.default := by
  rw [StreamStats.default, transform_stats_mk]
  have e1 : (0 : ℚ) / SIZE_IN_MB * 100 = 0 := by norm_num
  rw [e1, rustRound_of_bounds 0 0 (by norm_num) (by norm_num) (by norm_num)]
  norm_num

theorem transform_stats_example :
    transform_stats ⟨7, 2097152, 1048576, 3, 4⟩ = ⟨7, 2, 1, 3, 4⟩ := by
  rw [transform_stats_mk]
  have e1 : (2097152 : ℚ) / SIZE_IN_MB * 100 = 200 := by norm_num [SIZE_IN_MB]
  have e2 : (1048576 : ℚ) / SIZE_IN_MB * 100 = 100 := by norm_num [SIZE_IN_MB]
  rw [e1, e2, rustRound_of_bounds 200 200 (by norm_num) (by norm_num) (by norm_num),
      rustRound_of_bounds 100 100 (by norm_num) (by norm_num) (by norm_num)]
  norm_num

theorem transform_stats_tie_example :
    (transform_stats ⟨0, 524288 / 100, 0, 0, 0⟩).storage_size = 1 / 100 := by
  rw [transform_stats_mk]
  have e1 : (524288 : ℚ) / 100 / SIZE_IN_MB * 100 = 1 / 2 := by norm_num [SIZE_IN_MB]
  rw [e1, rustRound_of_bounds (1 / 2) 1 (by norm_num) (by norm_num) (by norm_num)]
  norm_num

theorem updFn_same [DecidableEq κ] (f : κ → α) (k : κ) (v : α) : updFn f k v k = v := by
  simp [updFn]

theorem isEmpty_false_of_ne_nil {l : List α} (h : l ≠ []) : l.isEmpty = false := by
  cases l with
  | nil => exact absurd rfl h
  | cons a as => rfl

theorem delete_stream_mark_err (w : World) (eff : DeleteOutcomes)
    (org_id stream_name : String) (stream_type : StreamType) (e : String)
    (hne : w.schemaVersions (org_id, stream_type, stream_name) ≠ [])
    (hcm : eff.compactMark = .error e) :
    delete_stream w eff org_id stream_name stream_type
      = (.internalServerError (.error 500 ("failed to delete stream: " ++ e)), w) := by
  simp only [delete_stream, isEmpty_false_of_ne_nil hne, hcm]
  rfl

theorem delete_stream_sd_err (w : World) (eff : DeleteOutcomes)
    (org_id stream_name : String) (stream_type : StreamType) (e : String)
    (hne : w.schemaVersions (org_id, stream_type, stream_name) ≠ [])
    (hcm : eff.compactMark = .ok ())
    (hsd : eff.schemaDelete = .error e) :
    delete_stream w eff org_id stream_name stream_type
      = (.internalServerError (.error 500 ("failed to delete stream: " ++ e)),
         { w with compactPending :=
             updFn w.compactPending (org_id, stream_type, stream_name) true }) := by
  simp only [delete_stream, isEmpty_false_of_ne_nil hne, hcm, hsd]
  rfl

theorem delete_stream_off_err (w : World) (eff : DeleteOutcomes)
    (org_id stream_name : String) (stream_type : StreamType) (e : String)
    (hne : w.schemaVersions (org_id, stream_type, stream_name) ≠ [])
    (hcm : eff.compactMark = .ok ())
    (hsd : eff.schemaDelete = .ok ())
    (hod : eff.offsetDelete = .error e) :
    delete_stream w eff org_id stream_name stream_type
      = (.internalServerError (.error 500 ("failed to delete stream: " ++ e)),
         { w with
           compactPending :=
             updFn w.compactPending (org_id, stream_type, stream_name) true
           schemaVersions :=
             updFn w.schemaVersions (org_id, stream_type, stream_name) []
           schemaCache :=
             updFn w.schemaCache (cacheKey org_id stream_type stream_name) none
           statsCache :=
             updFn w.statsCache (org_id, stream_type, stream_name) none }) := by
  simp only [delete_stream, isEmpty_false_of_ne_nil hne, hcm, hsd, hod]
  rfl

theorem delete_stream_all_ok (w : World) (eff : DeleteOutcomes)
    (org_id stream_name : String) (stream_type : StreamType)
    (hne : w.schemaVersions (org_id, stream_type, stream_name) ≠ [])
    (hcm : eff.compactMark = .ok ())
    (hsd : eff.schemaDelete = .ok ())
    (hod : eff.offsetDelete = .ok ()) :
    delete_stream w eff org_id stream_name stream_type
      = (.ok (.message 200 "stream deleted"),
         { w with
           compactPending :=
             updFn w.compactPending (org_id, stream_type, stream_name) true
           schemaVersions :=
             updFn w.schemaVersions (org_id, stream_type, stream_name) []
           schemaCache :=
             updFn w.schemaCache (cacheKey org_id stream_type stream_name) none
           statsCache :=
             updFn w.statsCache (org_id, stream_type, stream_name) none
           compactOffset :=
             updFn w.compactOffset (org_id, stream_type, stream_name) none }) := by
  simp only [delete_stream, isEmpty_false_of_ne_nil hne, hcm, hsd, hod]
  rfl

/-- C5: deleting a stream whose schema store holds no versions returns
NotFound (404, "stream not found") and leaves every external record — the
compaction pending-delete marks, the schema store, the schema cache, the
stats cache and the compaction offsets — exactly as they were. -/
theorem delete_stream_no_versions_is_notfound_no_mutation
    (w : World) (eff : DeleteOutcomes) (org_id stream_name : String)
    (stream_type : StreamType)
    (h : w.schemaVersions (org_id, stream_type, stream_name) = []) :
    delete_stream w eff org_id stream_name stream_type
      = (.notFound (.error 404 "stream not found"), w) := by
  simp only [delete_stream, h]
  rfl

theorem delete_stream_no_versions_witness :
    delete_stream
      ⟨fun _ => [], fun _ => none, fun _ => none, fun _ => false, fun _ => none⟩
      ⟨.ok (), .ok (), .ok ()⟩ "org1" "s1" .logs
      = (.notFound (.error 404 "stream not found"),
         ⟨fun _ => [], fun _ => none, fun _ => none, fun _ => false, fun _ => none⟩) :=
  delete_stream_no_versions_is_notfound_no_mutation _ _ _ _ _ rfl

/-- C6: the delete workflow runs compaction-mark, schema-delete, cache
clears, offset-delete in that order, short-circuiting at the first error:
a compaction-mark failure leaves the whole world untouched; a schema-delete
failure leaves everything but the pending mark untouched; full success
removes the schema versions, both cache entries and the offset and leaves
the pending mark set. -/
theorem delete_stream_order_and_frame
    (w : World) (eff : DeleteOutcomes) (org_id stream_name : String)
    (stream_type : StreamType)
    (hne : w.schemaVersions (org_id, stream_type, stream_name) ≠ []) :
    (∀ e, eff.compactMark = .error e →
      delete_stream w eff org_id stream_name stream_type
        = (.internalServerError (.error 500 ("failed to delete stream: " ++ e)), w)) ∧
    (∀ e, eff.compactMark = .ok () → eff.schemaDelete = .error e →
      (delete_stream w eff org_id stream_name stream_type).2.schemaVersions
          = w.schemaVersions ∧
      (delete_stream w eff org_id stream_name stream_type).2.schemaCache
          = w.schemaCache ∧
      (delete_stream w eff org_id stream_name stream_type).2.statsCache
          = w.statsCache ∧
      (delete_stream w eff org_id stream_name stream_type).2.compactOffset
          = w.compactOffset) ∧
    (eff.compactMark = .ok () → eff.schemaDelete = .ok () →
     eff.offsetDelete = .ok () →
      (delete_stream w eff org_id stream_name stream_type).1
          = .ok (.message 200 "stream deleted") ∧
      (delete_stream w eff org_id stream_name stream_type).2.schemaVersions
          (org_id, stream_type, stream_name) = [] ∧
      (delete_stream w eff org_id stream_name stream_type).2.schemaCache
          (cacheKey org_id stream_type stream_name) = none ∧
      (delete_stream w eff org_id stream_name stream_type).2.statsCache
          (org_id, stream_type, stream_name) = none ∧
      (delete_stream w eff org_id stream_name stream_type).2.compactOffset
          (org_id, stream_type, stream_name) = none ∧
      (delete_stream w eff org_id stream_name stream_type).2.compactPending
          (org_id, stream_type, stream_name) = true) ∧
    (∀ e, eff.compactMark = .ok () → eff.schemaDelete = .ok () →
     eff.offsetDelete = .error e →
      (delete_stream w eff org_id stream_name stream_type).1
          = .internalServerError (.error 500 ("failed to delete stream: " ++ e)) ∧
      (delete_stream w eff org_id stream_name stream_type).2.compactOffset
          = w.compactOffset) := by
  refine ⟨?_, ?_, ?_, ?_⟩
  · intro e hcm
    exact delete_stream_mark_err w eff org_id stream_name stream_type e hne hcm
  · intro e hcm hsd
    rw [delete_stream_sd_err w eff org_id stream_name stream_type e hne hcm hsd]
    exact ⟨rfl, rfl, rfl, rfl⟩
  · intro hcm hsd hod
    rw [delete_stream_all_ok w eff org_id stream_name stream_type hne hcm hsd hod]
    exact ⟨rfl, updFn_same _ _ _, updFn_same _ _ _, updFn_same _ _ _,
           updFn_same _ _ _, updFn_same _ _ _⟩
  · intro e hcm hsd hod
    rw [delete_stream_off_err w eff org_id stream_name stream_type e hne hcm hsd hod]
    exact ⟨rfl, rfl⟩

theorem delete_stream_order_and_frame_witness :
    delete_stream
      ⟨fun _ => [Schema.emptySchema], fun _ => none, fun _ => none,
       fun _ => false, fun _ => none⟩
      ⟨.error "boom", .ok (), .ok ()⟩ "org1" "s1" .logs
      = (.internalServerError
          (.error 500 ("failed to delete stream: " ++ "boom")),
         ⟨fun _ => [Schema.emptySchema], fun _ => none, fun _ => none,
          fun _ => false, fun _ => none⟩) :=
  (delete_stream_order_and_frame _ _ _ _ _
    (fun h => List.noConfusion h)).1 "boom" rfl

/-- C2 counterexample: with the same underlying cause string, a failure at
the compaction-mark stage and a failure at the schema-delete stage produce
identical responses, and the compaction-mark failure response is identical
across different stream names — the message "failed to delete stream: {e}"
names neither the failing stage nor the stream. -/
theorem delete_stream_error_counterexample :
    ((delete_stream
        ⟨fun _ => [Schema.emptySchema], fun _ => none, fun _ => none,
         fun _ => false, fun _ => none⟩
        ⟨.error "boom", .ok (), .ok ()⟩ "org1" "s1" .logs).1
      = (delete_stream
          ⟨fun _ => [Schema.emptySchema], fun _ => none, fun _ => none,
           fun _ => false, fun _ => none⟩
          ⟨.ok (), .error "boom", .ok ()⟩ "org1" "s1" .logs).1) ∧
    ((delete_stream
        ⟨fun _ => [Schema.emptySchema], fun _ => none, fun _ => none,
         fun _ => false, fun _ => none⟩
        ⟨.error "boom", .ok (), .ok ()⟩ "org1" "s1" .logs).1
      = (delete_stream
          ⟨fun _ => [Schema.emptySchema], fun _ => none, fun _ => none,
           fun _ => false, fun _ => none⟩
          ⟨.error "boom", .ok (), .ok ()⟩ "org1" "another_stream" .logs).1) ∧
    ((delete_stream
        ⟨fun _ => [Schema.emptySchema], fun _ => none, fun _ => none,
         fun _ => false, fun _ => none⟩
        ⟨.error "boom", .ok (), .ok ()⟩ "org1" "s1" .logs).1
      = .internalServerError (.error 500 "failed to delete stream: boom")) :=
  ⟨rfl, rfl, rfl⟩

/-- C2 amended: every external-call failure in the delete workflow returns a
500 response whose message is "failed to delete stream: " followed by the
underlying cause only; the message is the same for all three fallible
stages and does not mention the stream, so the stage is not identifiable
from the response. -/
theorem delete_stream_error_uniform_message
    (w : World) (eff : DeleteOutcomes) (org_id stream_name : String)
    (stream_type : StreamType) (e : String)
    (hne : w.schemaVersions (org_id, stream_type, stream_name) ≠ []) :
    (eff.compactMark = .error e →
      (delete_stream w eff org_id stream_name stream_type).1
        = .internalServerError (.error 500 ("failed to delete stream: " ++ e))) ∧
    (eff.compactMark = .ok () → eff.schemaDelete = .error e →
      (delete_stream w eff org_id stream_name stream_type).1
        = .internalServerError (.error 500 ("failed to delete stream: " ++ e))) ∧
    (eff.compactMark = .ok () → eff.schemaDelete = .ok () →
     eff.offsetDelete = .error e →
      (delete_stream w eff org_id stream_name stream_type).1
        = .internalServerError (.error 500 ("failed to delete stream: " ++ e))) := by
  refine ⟨?_, ?_, ?_⟩
  · intro hcm
    rw [delete_stream_mark_err w eff org_id stream_name stream_type e hne hcm]
  · intro hcm hsd
    rw [delete_stream_sd_err w eff org_id stream_name stream_type e hne hcm hsd]
  · intro hcm hsd hod
    rw [delete_stream_off_err w eff org_id stream_name stream_type e hne hcm hsd hod]

theorem delete_stream_error_uniform_message_witness :
    (delete_stream
      ⟨fun _ => [Schema.emptySchema], fun _ => none, fun _ => none,
       fun _ => false, fun _ => none⟩
      ⟨.ok (), .error "io", .ok ()⟩ "org1" "s1" .logs).1
      = .internalServerError (.error 500 ("failed to delete stream: " ++ "io")) :=
  (delete_stream_error_uniform_message _ _ _ _ _ "io"
    (fun h => List.noConfusion h)).2.1 rfl rfl

/-- C9 amended: saving settings on a stream already marked pending deletion
returns an HTTP 500 internal-server-error response whose message is
"stream [name] is being deleted", and the schema store is returned
unchanged — no settings write and no created_at stamp happen. -/
theorem save_stream_settings_deleting_rejects
    (store : String → String → StreamType → Schema) (eff : SaveEffects)
    (org_id stream_name : String) (stream_type : StreamType)
    (setting : StreamSettings) (h : eff.is_deleting = true) :
    save_stream_settings store eff org_id stream_name stream_type setting
      = (.internalServerError
          (.error 500 ("stream [" ++ stream_name ++ "] is being deleted")),
         store) := by
  simp only [save_stream_settings, h]
  rfl

theorem save_stream_settings_deleting_rejects_witness :
    save_stream_settings (fun _ _ _ => Schema.emptySchema) ⟨true, 0⟩
      "org1" "s1" .logs StreamSettings.default
      = (.internalServerError
          (.error 500 ("stream [" ++ "s1" ++ "] is being deleted")),
         fun _ _ _ => Schema.emptySchema) :=
  save_stream_settings_deleting_rejects _ _ _ _ _ _ rfl

/-- C9 counterexample: the pending-deletion refusal is delivered with the
internal-server-error status (500) — the same status shape the service uses
for subsystem failures — not with a distinct conflict status. -/
theorem save_stream_settings_deleting_counterexample :
    (save_stream_settings (fun _ _ _ => Schema.emptySchema) ⟨true, 0⟩
        "org1" "s1" .logs StreamSettings.default).1
      = .internalServerError (.error 500 "stream [s1] is being deleted") ∧
    (save_stream_settings (fun _ _ _ => Schema.emptySchema) ⟨true, 0⟩
        "org1" "s1" .logs StreamSettings.default).1.statusCode = 500 ∧
    ((save_stream_settings (fun _ _ _ => Schema.emptySchema) ⟨true, 0⟩
        "org1" "s1" .logs StreamSettings.default).1.statusCode = 409 → False) :=
  ⟨rfl, rfl, by decide⟩

theorem transform_stats_zero_sizes (d t1 t2 : ℤ) :
    transform_stats ⟨d, 0, 0, t1, t2⟩ = ⟨d, 0, 0, t1, t2⟩ := by
  rw [transform_stats_mk]
  have e1 : (0 : ℚ) / SIZE_IN_MB * 100 = 0 := by norm_num
  rw [e1, rustRound_of_bounds 0 0 (by norm_num) (by norm_num) (by norm_num)]
  norm_num

/-- C3 counterexample: a schema with zero fields but a nonempty metadata map
(here just a created_at stamp) is not equal to Schema::empty(), so
get_stream returns an OK descriptor — not NotFound — even though the field
list is empty; the stats here are non-default. -/
theorem get_stream_empty_fields_counterexample :
    get_stream (fun _ _ _ => ⟨[], [("created_at", .json (.int 1))]⟩)
      (fun _ _ _ => ⟨5, 0, 0, 1, 2⟩) true "org1" "s1" .logs
      = some (.ok (.stream
          ⟨"s1", .logs, "disk", [], ⟨5, 0, 0, 1, 2⟩, StreamSettings.default⟩)) := by
  simp only [get_stream, transform_stats_zero_sizes]
  rfl

/-- C3 amended: get_stream reports NotFound exactly when the fetched schema
equals Schema::empty() — zero fields AND an empty metadata map; any other
schema (including a zero-field schema with nonempty metadata) yields either
an OK descriptor or a settings-decode panic, never NotFound. -/
theorem get_stream_notfound_iff_empty_schema
    (schemaGet : String → String → StreamType → Schema)
    (gst : String → String → StreamType → StreamStats) (loc : Bool)
    (org_id stream_name : String) (stream_type : StreamType) :
    ((schemaGet org_id stream_name stream_type).isEmptySchema = true →
      get_stream schemaGet gst loc org_id stream_name stream_type
        = some (.notFound (.error 404 "stream not found"))) ∧
    ((schemaGet org_id stream_name stream_type).isEmptySchema = false →
      (get_stream schemaGet gst loc org_id stream_name stream_type = none ∨
       ∃ st, get_stream schemaGet gst loc org_id stream_name stream_type
         = some (.ok (.stream st)))) := by
  constructor
  · intro h
    simp only [get_stream, h, Bool.not_true, Bool.false_eq_true, if_false]
  · intro h
    simp only [get_stream, h, Bool.not_false, if_true]
    cases hs : stream_res stream_name stream_type
        (schemaGet org_id stream_name stream_type)
        (some (transform_stats (gst org_id stream_name stream_type))) loc with
    | none => left; rfl
    | some st => right; exact ⟨st, rfl⟩

theorem get_stream_notfound_iff_empty_schema_witness :
    get_stream (fun _ _ _ => Schema.emptySchema)
      (fun _ _ _ => StreamStats.default) true "org1" "s1" .logs
      = some (.notFound (.error 404 "stream not found")) :=
  (get_stream_notfound_iff_empty_schema _ _ _ _ _ _).1 rfl

/-- C1 counterexample: a settings blob that parses fine but has
skip_schema_validation bound to a string makes the settings decode panic
(`as_bool().unwrap()`), modelled as `none` — the field is not replaced by
its default, even though the blob is present and parseable. -/
theorem stream_res_type_mismatch_counterexample :
    lookupMeta
        ([("settings", .json (.obj [("skip_schema_validation", .str "yes")]))] :
          Metadata) "settings"
      = some (.json (.obj [("skip_schema_validation", .str "yes")])) ∧
    from_slice (.json (.obj [("skip_schema_validation", .str "yes")]))
      = some (.obj [("skip_schema_validation", .str "yes")]) ∧
    stream_res "s1" .logs
      ⟨[], [("settings", .json (.obj [("skip_schema_validation", .str "yes")]))]⟩
      none true = none :=
  ⟨rfl, rfl, rfl⟩

theorem mapMOpt_none_of_mem {f : α → Option β} {l : List α} {a : α}
    (ha : a ∈ l) (hf : f a = none) : mapMOpt f l = none := by
  induction l with
  | nil => cases ha
  | cons x xs ih =>
    rcases List.mem_cons.mp ha with h | h
    · subst h
      simp only [mapMOpt, hf]
    · simp only [mapMOpt, ih h]
      cases hfx : f x <;> rfl

theorem decodeSettings_none_of_skip_none {s : Json}
    (h : decodeSkip s = none) : decodeSettings s = none := by
  simp only [decodeSettings, h]

theorem decodeSettings_none_of_pk_none {s : Json}
    (h : decodePartitionKeys s = none) : decodeSettings s = none := by
  unfold decodeSettings
  cases decodeSkip s with
  | none => rfl
  | some skip => simp only [h]

theorem decodeSettings_none_of_fts_none {s : Json}
    (h : decodeFts s = none) : decodeSettings s = none := by
  unfold decodeSettings
  cases decodeSkip s with
  | none => rfl
  | some skip =>
    cases decodePartitionKeys s with
    | none => rfl
    | some pk => simp only [h]

theorem decodeSettings_none_of_ret_none {s : Json}
    (h : decodeRetention s = none) : decodeSettings s = none := by
  unfold decodeSettings
  cases decodeSkip s with
  | none => rfl
  | some skip =>
    cases decodePartitionKeys s with
    | none => rfl
    | some pk =>
      cases decodeFts s with
      | none => rfl
      | some fts => simp only [h]

theorem decodePartitionKeys_none_of_bad_value {s v2 : Json}
    {kvs : List (String × Json)} {k : String}
    (hget : s.get "partition_keys" = some (.obj kvs))
    (hm : (k, v2) ∈ kvs) (hv : v2.asStr = none) :
    decodePartitionKeys s = none := by
  simp only [decodePartitionKeys, hget, Json.asObject]
  exact mapMOpt_none_of_mem ((sortKV_perm kvs).mem_iff.mpr hm) hv

theorem decodeFts_none_of_bad_item {s it : Json} {items : List Json}
    (hget : s.get "full_text_search_keys" = some (.arr items))
    (hm : it ∈ items) (hv : it.asStr = none) :
    decodeFts s = none := by
  simp only [decodeFts, hget, Json.asArray]
  exact mapMOpt_none_of_mem hm hv

theorem stream_res_none_of_settings_decode_none
    (stream_name : String) (stream_type : StreamType) (sch : Schema)
    (stats : Option StreamStats) (loc : Bool) {s : Json}
    (h : lookupMeta sch.metadata "settings" = some (.json s))
    (hd : decodeSettings s = none) :
    stream_res stream_name stream_type sch stats loc = none := by
  simp only [stream_res, decodeMetaSettings,
    lookupMeta_removeKey sch.metadata "settings" "created_at" (by decide), h,
    from_slice, hd]

theorem decodeSettings_fields_of_stream_res_some
    {stream_name : String} {stream_type : StreamType} {sch : Schema}
    {stats : Option StreamStats} {loc : Bool} {s : Json} {st : StreamDescriptor}
    (h : lookupMeta sch.metadata "settings" = some (.json s))
    (hres : stream_res stream_name stream_type sch stats loc = some st) :
    decodeSkip s = some st.settings.skip_schema_validation ∧
    decodePartitionKeys s = some st.settings.partition_keys ∧
    decodeFts s = some st.settings.full_text_search_keys ∧
    decodeRetention s = some st.settings.data_retention := by
  obtain ⟨hd, -, -, -, -, -, -⟩ := stream_res_some_inv hres
  unfold decodeMetaSettings at hd
  rw [lookupMeta_removeKey sch.metadata "settings" "created_at" (by decide),
      h] at hd
  simp only [from_slice] at hd
  exact decodeSettings_some_inv hd

/-- C1 amended: with a settings entry present, each key missing from the
parsed blob is independently replaced by that field's default (whenever the
decode finishes at all, and the decode does finish when every key is
absent); but a type mismatch on any of the four fields — a non-boolean
skip_schema_validation, a non-object partition_keys or a non-string
partition-key value, a non-array full_text_search_keys or a non-string item,
a non-integer data_retention — makes the decode fail (panic), exactly like
a blob that does not parse at all, rather than defaulting or returning a
structured error. -/
theorem stream_res_settings_decode_amended
    (stream_name : String) (stream_type : StreamType) (sch : Schema)
    (stats : Option StreamStats) (loc : Bool) :
    (∀ s st, lookupMeta sch.metadata "settings" = some (.json s) →
      stream_res stream_name stream_type sch stats loc = some st →
      (s.get "skip_schema_validation" = none →
        st.settings.skip_schema_validation = false) ∧
      (s.get "partition_keys" = none → st.settings.partition_keys = []) ∧
      (s.get "full_text_search_keys" = none →
        st.settings.full_text_search_keys = []) ∧
      (s.get "data_retention" = none → st.settings.data_retention = 0)) ∧
    (∀ s, lookupMeta sch.metadata "settings" = some (.json s) →
      s.get "skip_schema_validation" = none →
      s.get "partition_keys" = none →
      s.get "full_text_search_keys" = none →
      s.get "data_retention" = none →
      ∃ st, stream_res stream_name stream_type sch stats loc = some st ∧
        st.settings = StreamSettings.default) ∧
    (∀ s v, lookupMeta sch.metadata "settings" = some (.json s) →
      s.get "skip_schema_validation" = some v → v.asBool = none →
      stream_res stream_name stream_type sch stats loc = none) ∧
    (∀ s v, lookupMeta sch.metadata "settings" = some (.json s) →
      s.get "partition_keys" = some v → v.asObject = none →
      stream_res stream_name stream_type sch stats loc = none) ∧
    (∀ s kvs k v2, lookupMeta sch.metadata "settings" = some (.json s) →
      s.get "partition_keys" = some (.obj kvs) → (k, v2) ∈ kvs →
      v2.asStr = none →
      stream_res stream_name stream_type sch stats loc = none) ∧
    (∀ s v, lookupMeta sch.metadata "settings" = some (.json s) →
      s.get "full_text_search_keys" = some v → v.asArray = none →
      stream_res stream_name stream_type sch stats loc = none) ∧
    (∀ s items it, lookupMeta sch.metadata "settings" = some (.json s) →
      s.get "full_text_search_keys" = some (.arr items) → it ∈ items →
      it.asStr = none →
      stream_res stream_name stream_type sch stats loc = none) ∧
    (∀ s v, lookupMeta sch.metadata "settings" = some (.json s) →
      s.get "data_retention" = some v → v.asI64 = none →
      stream_res stream_name stream_type sch stats loc = none) ∧
    (lookupMeta sch.metadata "settings" = some .malformed →
      stream_res stream_name stream_type sch stats loc = none) := by
  have hlk := lookupMeta_removeKey sch.metadata "settings" "created_at" (by decide)
  refine ⟨?_, ?_, ?_, ?_, ?_, ?_, ?_, ?_, ?_⟩
  · intro s st h hres
    obtain ⟨h1, h2, h3, h4⟩ := decodeSettings_fields_of_stream_res_some h hres
    refine ⟨?_, ?_, ?_, ?_⟩
    · intro hk
      unfold decodeSkip at h1
      rw [hk] at h1
      simp only [Option.some.injEq] at h1
      exact h1.symm
    · intro hk
      unfold decodePartitionKeys at h2
      rw [hk] at h2
      simp only [Option.some.injEq] at h2
      exact h2.symm
    · intro hk
      unfold decodeFts at h3
      rw [hk] at h3
      simp only [Option.some.injEq] at h3
      exact h3.symm
    · intro hk
      unfold decodeRetention at h4
      rw [hk] at h4
      simp only [Option.some.injEq] at h4
      exact h4.symm
  · intro s h h1 h2 h3 h4
    simp only [stream_res, decodeMetaSettings, hlk, h, from_slice, decodeSettings,
      decodeSkip, decodePartitionKeys, decodeFts, decodeRetention, h1, h2, h3, h4]
    exact ⟨_, rfl, rfl⟩
  · intro s v h hget hv
    refine stream_res_none_of_settings_decode_none _ _ _ _ _ h
      (decodeSettings_none_of_skip_none ?_)
    simp only [decodeSkip, hget, hv]
  · intro s v h hget hv
    refine stream_res_none_of_settings_decode_none _ _ _ _ _ h
      (decodeSettings_none_of_pk_none ?_)
    simp only [decodePartitionKeys, hget, hv]
  · intro s kvs k v2 h hget hm hv
    exact stream_res_none_of_settings_decode_none _ _ _ _ _ h
      (decodeSettings_none_of_pk_none
        (decodePartitionKeys_none_of_bad_value hget hm hv))
  · intro s v h hget hv
    refine stream_res_none_of_settings_decode_none _ _ _ _ _ h
      (decodeSettings_none_of_fts_none ?_)
    simp only [decodeFts, hget, hv]
  · intro s items it h hget hm hv
    exact stream_res_none_of_settings_decode_none _ _ _ _ _ h
      (decodeSettings_none_of_fts_none (decodeFts_none_of_bad_item hget hm hv))
  · intro s v h hget hv
    refine stream_res_none_of_settings_decode_none _ _ _ _ _ h
      (decodeSettings_none_of_ret_none ?_)
    simp only [decodeRetention, hget, hv]
  · intro h
    simp only [stream_res, decodeMetaSettings, hlk, h, from_slice]

theorem stream_res_settings_decode_amended_witness :
    (stream_res "s1" .logs
        ⟨[], [("settings", .json (.obj [("data_retention", .int 5)]))]⟩ none true
      = some ⟨"s1", .logs, "disk", [], StreamStats.default, ⟨[], [], false, 5⟩⟩) ∧
    (⟨"s1", .logs, "disk", [], StreamStats.default,
       (⟨[], [], false, 5⟩ : StreamSettings)⟩ :
         StreamDescriptor).settings.skip_schema_validation = false ∧
    (∃ st, stream_res "s1" .logs ⟨[], [("settings", .json (.obj []))]⟩ none true
        = some st ∧ st.settings = StreamSettings.default) ∧
    stream_res "s1" .logs
      ⟨[], [("settings", .json (.obj [("skip_schema_validation", .int 1)]))]⟩
      none true = none ∧
    stream_res "s1" .logs
      ⟨[], [("settings", .json (.obj [("partition_keys",
        .obj [("a", .int 1)])]))]⟩ none true = none ∧
    stream_res "s1" .logs
      ⟨[], [("settings", .json (.obj [("data_retention", .str "abc")]))]⟩
      none true = none ∧
    stream_res "s1" .logs ⟨[], [("settings", .malformed)]⟩ none true = none :=
  ⟨rfl,
   ((stream_res_settings_decode_amended "s1" .logs
      ⟨[], [("settings", .json (.obj [("data_retention", .int 5)]))]⟩ none true).1
      (.obj [("data_retention", .int 5)])
      ⟨"s1", .logs, "disk", [], StreamStats.default, ⟨[], [], false, 5⟩⟩
      rfl rfl).1 rfl,
   (stream_res_settings_decode_amended "s1" .logs
      ⟨[], [("settings", .json (.obj []))]⟩ none true).2.1
      (.obj []) rfl rfl rfl rfl rfl,
   (stream_res_settings_decode_amended "s1" .logs
      ⟨[], [("settings", .json (.obj [("skip_schema_validation", .int 1)]))]⟩
      none true).2.2.1
      (.obj [("skip_schema_validation", .int 1)]) (.int 1) rfl rfl rfl,
   (stream_res_settings_decode_amended "s1" .logs
      ⟨[], [("settings", .json (.obj [("partition_keys",
        .obj [("a", .int 1)])]))]⟩ none true).2.2.2.2.1
      (.obj [("partition_keys", .obj [("a", .int 1)])])
      [("a", .int 1)] "a" (.int 1) rfl rfl (List.Mem.head _) rfl,
   (stream_res_settings_decode_amended "s1" .logs
      ⟨[], [("settings", .json (.obj [("data_retention", .str "abc")]))]⟩
      none true).2.2.2.2.2.2.2.1
      (.obj [("data_retention", .str "abc")]) (.str "abc") rfl rfl rfl,
   (stream_res_settings_decode_amended "s1" .logs
      ⟨[], [("settings", .malformed)]⟩ none true).2.2.2.2.2.2.2.2 rfl⟩

/-- C4: whenever the settings blob holds a partition_keys object and the
descriptor build succeeds, the decoded partition_keys sequence is obtained
by permuting the object's entries into ascending lexical key order (strict
byte/code-point order, equal keys keeping input order) and emitting each
entry's string value in that order. -/
theorem stream_res_partition_keys_sorted
    (stream_name : String) (stream_type : StreamType) (sch : Schema)
    (stats : Option StreamStats) (loc : Bool) (s : Json)
    (kvs : List (String × Json)) (st : StreamDescriptor)
    (hset : lookupMeta sch.metadata "settings" = some (.json s))
    (hpk : s.get "partition_keys" = some (.obj kvs))
    (hres : stream_res stream_name stream_type sch stats loc = some st) :
    ∃ sorted, List.Perm sorted kvs ∧ sorted.Pairwise keyLe ∧
      mapMOpt (fun kv => kv.2.asStr) sorted = some st.settings.partition_keys := by
  obtain ⟨hd, -, -, -, -, -, -⟩ := stream_res_some_inv hres
  unfold decodeMetaSettings at hd
  rw [lookupMeta_removeKey sch.metadata "settings" "created_at" (by decide),
      hset] at hd
  simp only [from_slice] at hd
  obtain ⟨-, hpk2, -, -⟩ := decodeSettings_some_inv hd
  unfold decodePartitionKeys at hpk2
  rw [hpk] at hpk2
  simp only [Json.asObject] at hpk2
  exact ⟨sortKV kvs, sortKV_perm kvs, sortKV_pairwise kvs, hpk2⟩

theorem stream_res_partition_keys_sorted_witness :
    stream_res "s1" .logs
      ⟨[], [("settings", .json (.obj [("partition_keys",
        .obj [("b", .str "region"), ("a", .str "tenant")])]))]⟩ none true
      = some ⟨"s1", .logs, "disk", [], StreamStats.default,
              ⟨["tenant", "region"], [], false, 0⟩⟩ ∧
    (∃ sorted,
      List.Perm sorted [("b", Json.str "region"), ("a", Json.str "tenant")] ∧
      sorted.Pairwise keyLe ∧
      mapMOpt (fun kv => kv.2.asStr) sorted = some ["tenant", "region"]) :=
  ⟨rfl,
   stream_res_partition_keys_sorted "s1" .logs
     ⟨[], [("settings", .json (.obj [("partition_keys",
       .obj [("b", .str "region"), ("a", .str "tenant")])]))]⟩ none true
     (.obj [("partition_keys", .obj [("b", .str "region"), ("a", .str "tenant")])])
     [("b", .str "region"), ("a", .str "tenant")]
     ⟨"s1", .logs, "disk", [], StreamStats.default,
      ⟨["tenant", "region"], [], false, 0⟩⟩
     rfl rfl rfl⟩

/-- C10: whenever stream_res succeeds on a schema, the independent FTS
reader get_stream_setting_fts_fields also succeeds on that schema and
returns exactly the full_text_search_keys list of the settings stream_res
decoded — the two decoders agree. -/
theorem fts_decoders_agree
    (stream_name : String) (stream_type : StreamType) (sch : Schema)
    (stats : Option StreamStats) (loc : Bool) (st : StreamDescriptor)
    (hres : stream_res stream_name stream_type sch stats loc = some st) :
    get_stream_setting_fts_fields sch
      = some st.settings.full_text_search_keys := by
  obtain ⟨hd, -, -, -, -, -, -⟩ := stream_res_some_inv hres
  unfold decodeMetaSettings at hd
  rw [lookupMeta_removeKey sch.metadata "settings" "created_at" (by decide)] at hd
  unfold get_stream_setting_fts_fields
  cases hset : lookupMeta sch.metadata "settings" with
  | none =>
    rw [hset] at hd
    simp only [Option.some.injEq] at hd
    rw [← hd]
    rfl
  | some mv =>
    rw [hset] at hd
    cases mv with
    | malformed => simp [from_slice] at hd
    | json s =>
      simp only [from_slice] at hd
      obtain ⟨-, -, hfts, -⟩ := decodeSettings_some_inv hd
      unfold decodeFts at hfts
      exact hfts

theorem fts_decoders_agree_witness :
    get_stream_setting_fts_fields
      ⟨[], [("settings", .json (.obj [("full_text_search_keys",
        .arr [.str "log", .str "message"])]))]⟩
      = some ["log", "message"] :=
  fts_decoders_agree "s1" .logs
    ⟨[], [("settings", .json (.obj [("full_text_search_keys",
      .arr [.str "log", .str "message"])]))]⟩ none true
    ⟨"s1", .logs, "disk", [], StreamStats.default,
     ⟨[], ["log", "message"], false, 0⟩⟩
    rfl

theorem round2_close (y : ℚ) :
    |(rustRound (y * 100) : ℚ) / 100 - y| ≤ 1 / 200 := by
  have h := rustRound_abs_sub (y * 100)
  have habs : |(100 : ℚ)| = 100 := by norm_num
  rw [show (rustRound (y * 100) : ℚ) / 100 - y
        = ((rustRound (y * 100) : ℚ) - y * 100) / 100 by ring,
      abs_div, habs]
  linarith

/-- C7: transform_stats leaves the row count and both time-range bounds
unchanged, and maps each size field to (round to nearest, ties away from
zero, of bytes/2^20 scaled by 100)/100 — an exact multiple of 1/100 within
1/200 of the true mebibyte value; on the spec's example 2097152 / 1048576
raw bytes it yields exactly 2 and 1, and on a half-way value (524288/100
bytes, i.e. 0.005 MiB) it rounds the tie up to 0.01. -/
theorem transform_stats_normalizes (s : StreamStats) :
    (transform_stats s).doc_num = s.doc_num ∧
    (transform_stats s).doc_time_min = s.doc_time_min ∧
    (transform_stats s).doc_time_max = s.doc_time_max ∧
    (transform_stats s).storage_size
      = (rustRound (s.storage_size / SIZE_IN_MB * 100) : ℚ) / 100 ∧
    (transform_stats s).compressed_size
      = (rustRound (s.compressed_size / SIZE_IN_MB * 100) : ℚ) / 100 ∧
    |(transform_stats s).storage_size - s.storage_size / SIZE_IN_MB| ≤ 1 / 200 ∧
    |(transform_stats s).compressed_size - s.compressed_size / SIZE_IN_MB|
      ≤ 1 / 200 ∧
    transform_stats ⟨7, 2097152, 1048576, 3, 4⟩ = ⟨7, 2, 1, 3, 4⟩ ∧
    (transform_stats ⟨0, 524288 / 100, 0, 0, 0⟩).storage_size = 1 / 100 := by
  refine ⟨rfl, rfl, rfl, rfl, rfl, ?_, ?_,
          transform_stats_example, transform_stats_tie_example⟩
  · exact round2_close (s.storage_size / SIZE_IN_MB)
  · exact round2_close (s.compressed_size / SIZE_IN_MB)

/-- C8: when get_streams succeeds, it returns exactly one descriptor per
listed stream in listing order; a stream whose raw stats equal the default
value is built with stats = None (so the descriptor carries the default
stats, untransformed), every other stream carries its normalized raw
stats. -/
theorem get_streams_listing_order_and_default_stats
    (org_id : String) (indices : List StreamLoc)
    (gst : String → String → StreamType → StreamStats) (loc : Bool)
    (res : List StreamDescriptor)
    (h : get_streams org_id indices gst loc = some res) :
    res.length = indices.length ∧
    ∀ i lc, indices.get? i = some lc →
      ∃ st, res.get? i = some st ∧
        stream_res lc.stream_name lc.stream_type lc.schema
          (if gst org_id lc.stream_name lc.stream_type = StreamStats.default
           then none
           else some (transform_stats (gst org_id lc.stream_name lc.stream_type)))
          loc = some st ∧
        (gst org_id lc.stream_name lc.stream_type = StreamStats.default →
          st.stats = StreamStats.default) ∧
        (gst org_id lc.stream_name lc.stream_type ≠ StreamStats.default →
          st.stats = transform_stats (gst org_id lc.stream_name lc.stream_type)) := by
  unfold get_streams at h
  refine ⟨mapMOpt_length h, ?_⟩
  intro i lc hlc
  obtain ⟨st, hst, hf⟩ := mapMOpt_get? h i lc hlc
  have hf2 : (if gst org_id lc.stream_name lc.stream_type = StreamStats.default
      then stream_res lc.stream_name lc.stream_type lc.schema none loc
      else stream_res lc.stream_name lc.stream_type lc.schema
        (some (transform_stats (gst org_id lc.stream_name lc.stream_type))) loc)
      = some st := hf
  by_cases hd : gst org_id lc.stream_name lc.stream_type = StreamStats.default
  · rw [if_pos hd] at hf2
    refine ⟨st, hst, ?_, ?_, ?_⟩
    · rw [if_pos hd]
      exact hf2
    · intro _
      obtain ⟨-, -, -, -, -, hnone, -⟩ := stream_res_some_inv hf2
      exact hnone rfl
    · intro hc
      exact absurd hd hc
  · rw [if_neg hd] at hf2
    refine ⟨st, hst, ?_, ?_, ?_⟩
    · rw [if_neg hd]
      exact hf2
    · intro hc
      exact absurd hc hd
    · intro _
      obtain ⟨-, -, -, -, -, -, hsome⟩ := stream_res_some_inv hf2
      exact hsome _ rfl

theorem get_streams_listing_witness :
    ([⟨"a", .logs, "disk", [], StreamStats.default, StreamSettings.default⟩,
      ⟨"b", .logs, "disk", [], StreamStats.default, StreamSettings.default⟩] :
        List StreamDescriptor).length
      = ([⟨"a", .logs, ⟨[], []⟩⟩, ⟨"b", .logs, ⟨[], []⟩⟩] : List StreamLoc).length ∧
    (∃ st,
      ([⟨"a", .logs, "disk", [], StreamStats.default, StreamSettings.default⟩,
        ⟨"b", .logs, "disk", [], StreamStats.default, StreamSettings.default⟩] :
          List StreamDescriptor).get? 0 = some st ∧
      stream_res "a" .logs ⟨[], []⟩ none true = some st ∧
      (StreamStats.default = StreamStats.default →
        st.stats = StreamStats.default) ∧
      (StreamStats.default ≠ StreamStats.default →
        st.stats = transform_stats StreamStats.default)) :=
  ⟨(get_streams_listing_order_and_default_stats "o"
      [⟨"a", .logs, ⟨[], []⟩⟩, ⟨"b", .logs, ⟨[], []⟩⟩]
      (fun _ _ _ => StreamStats.default) true _ rfl).1,
   (get_streams_listing_order_and_default_stats "o"
      [⟨"a", .logs, ⟨[], []⟩⟩, ⟨"b", .logs, ⟨[], []⟩⟩]
      (fun _ _ _ => StreamStats.default) true _ rfl).2 0 ⟨"a", .logs, ⟨[], []⟩⟩ rfl⟩
